import Mathlib

/-!
Shallow embedding of the martini middleware repository: the gzip response
compression filter (`serveGzip`, `gzipResponseWriter`) and the render helper
(`Render.JSON`, `Render.HTML`, `Render.WriteData`, `Render.Error`,
`Render.Status`, template compilation helpers `getExt` / `compile`).

Modelling conventions:
* Go byte slices and strings are both modelled as Lean `String`
  (concatenation of strings models concatenation of byte slices).
* An `http.Header` is an association list from header name to value;
  `hGet` / `hSet` / `hDel` model `Header.Get` / `Header.Set` / `Header.Del`
  of Go's `net/http` (Get returns the first value or "", Set replaces,
  Del removes).  All header keys appearing in the source are already in
  canonical MIME form, so canonicalisation is the identity here.
* An `http.ResponseWriter` is a `Response`: headers, an optional committed
  status code, and the body bytes written so far.  `writeHeader` models
  `WriteHeader` (the first committed status wins), `write` models `Write`
  (an implicit 200 is committed on first write).
* The gzip compression stream (`compress/gzip`, a black box external to the
  repository) is a `GzipStream`: the chunks handed to it, and whether it has
  been closed.  Forwarding bytes "through the compression stream" is
  appending the chunk to `chunks`; the underlying writer's body is untouched.
* `http.DetectContentType` (content sniffing, black box) is an arbitrary
  function parameter `sniff`.
* `json.Marshal` / `json.MarshalIndent` applied to the handler's value
  (black boxes) are arbitrary `Except String String` parameters.
* The `html/template` engine is abstracted by an arbitrary execution
  function `exec : YieldFuncs V → String → V → Except String String`:
  the result of `t.ExecuteTemplate` depends only on the template name, the
  binding and the currently installed `yield`/`current` function table,
  which is the only part of the template set this code mutates.
-/

namespace Martini

/-! ### HTTP header and response writer model -/

abbrev Headers := List (String × String)

def hGet (h : Headers) (k : String) : String :=
  match h.find? (fun p => p.1 == k) with
  | some p => p.2
  | none => ""

def hDel (h : Headers) (k : String) : Headers :=
  h.filter (fun p => p.1 != k)

def hSet (h : Headers) (k v : String) : Headers :=
  (k, v) :: hDel h k

structure Response where
  headers : Headers
  status : Option Nat
  body : String
  deriving Repr, DecidableEq

def writeHeader (rw : Response) (code : Nat) : Response :=
  match rw.status with
  | some _ => rw
  | none => { rw with status := some code }

def write (rw : Response) (p : String) : Response :=
  let rw1 := writeHeader rw 200
  { rw1 with body := rw1.body ++ p }

/-- Model of `http.Error(w, e, code)` from `net/http` (black box): sets a
plain-text content type, commits the status code and writes the error text
followed by a newline. -/
def httpError (rw : Response) (e : String) (code : Nat) : Response :=
  let h1 := hSet rw.headers "Content-Type" "text/plain; charset=utf-8"
  let h2 := hSet h1 "X-Content-Type-Options" "nosniff"
  write (writeHeader { rw with headers := h2 } code) (e ++ "\n")

/-! ### gzip filter (src/unnamed/part_000) -/

def HeaderAcceptEncoding : String := "Accept-Encoding"
def HeaderContentEncoding : String := "Content-Encoding"
def HeaderContentLength : String := "Content-Length"
def HeaderContentType : String := "Content-Type"
def HeaderVary : String := "Vary"

/-- Model of Go `strings.Contains s sub` (substring test, true on empty
`sub`), on char lists. -/
def listContainsSub (sub : List Char) : List Char → Bool
  | [] => sub.isEmpty
  | c :: t => sub.isPrefixOf (c :: t) || listContainsSub sub t

def stringContains (s sub : String) : Bool :=
  listContainsSub sub.data s.data

structure GzipStream where
  chunks : List String
  closed : Bool
  deriving Repr, DecidableEq

/-- `gzipResponseWriter` from src/unnamed/part_000: a gzip stream plus the
embedded original `ResponseWriter`. -/
structure gzipResponseWriter where
  w : GzipStream
  rw : Response
  deriving Repr, DecidableEq

/-- `gzipResponseWriter.Write`: when Content-Type is unset, sniff it from the
chunk; then forward the chunk through the gzip stream (never directly to the
underlying writer). -/
def gzipResponseWriter.Write (sniff : String → String) (grw : gzipResponseWriter)
    (p : String) : gzipResponseWriter :=
  let grw1 :=
    if (hGet grw.rw.headers HeaderContentType).length = 0 then
      { grw with rw := { grw.rw with headers := hSet grw.rw.headers HeaderContentType (sniff p) } }
    else grw
  { grw1 with w := { grw1.w with chunks := grw1.w.chunks ++ [p] } }

/-- Which writer the Context currently maps for downstream handlers
(`c.MapTo(gzw, (*http.ResponseWriter)(nil))` switches it to `gzipped`). -/
inductive MappedWriter where
  | original
  | gzipped
  deriving Repr, DecidableEq

structure ChainState where
  resp : Response
  gz : Option GzipStream
  writer : MappedWriter
  deriving Repr, DecidableEq

/-- Event trace of one `serveGzip` invocation, recording the order of its
observable operations. -/
inductive GzEvent where
  | setHeader (k v : String)
  | mapGzipWriter
  | runNext
  | delHeader (k : String)
  | closeStream
  deriving Repr, DecidableEq

/-- The part of `serveGzip` before `c.Next()`: set `Content-Encoding` and
`Vary`, create the gzip stream bound to the original writer, and map the
wrapping writer for downstream handlers. -/
def gzipSetup (st : ChainState) : ChainState :=
  { st with
      resp := { st.resp with
        headers := hSet (hSet st.resp.headers HeaderContentEncoding "gzip")
          HeaderVary HeaderAcceptEncoding }
      gz := some { chunks := [], closed := false }
      writer := MappedWriter.gzipped }

/-- `gzw.Header().Del("Content-Length")` (the wrapper's Header is the
underlying response's header map). -/
def gzipDelContentLength (st : ChainState) : ChainState :=
  { st with resp := { st.resp with headers := hDel st.resp.headers "Content-Length" } }

/-- The deferred `gz.Close()`. -/
def gzipClose (st : ChainState) : ChainState :=
  { st with gz := st.gz.map (fun g => { g with closed := true }) }

def gzipSetupEvents : List GzEvent :=
  [GzEvent.setHeader HeaderContentEncoding "gzip",
   GzEvent.setHeader HeaderVary HeaderAcceptEncoding,
   GzEvent.mapGzipWriter]

def gzipNormalEvents : List GzEvent :=
  gzipSetupEvents ++ [GzEvent.runNext, GzEvent.delHeader "Content-Length", GzEvent.closeStream]

def gzipPanicEvents : List GzEvent :=
  gzipSetupEvents ++ [GzEvent.runNext, GzEvent.closeStream]

/-- `serveGzip`.  `next` is the downstream chain (`c.Next()`); its Bool
result records whether downstream panicked.  Go's `defer gz.Close()` runs at
function exit on both the normal and the panicking path; the
`Del("Content-Length")` statement runs only on the normal path, and textually
(and temporally) before the deferred close.  The returned Bool propagates the
panic; the event list is the operation trace. -/
def serveGzip (acceptEncoding : String) (next : ChainState → ChainState × Bool)
    (st : ChainState) : ChainState × Bool × List GzEvent :=
  if stringContains acceptEncoding "gzip" = false then (st, false, [])
  else
    let r := next (gzipSetup st)
    if r.2 then (gzipClose r.1, true, gzipPanicEvents)
    else (gzipClose (gzipDelContentLength r.1), false, gzipNormalEvents)

/-! ### render helper (src/render.go) -/

def ContentType : String := "Content-Type"
def ContentBinary : String := "application/octet-stream"
def ContentJSON : String := "application/json"
def ContentHTML : String := "text/html"
def defaultCharset : String := "UTF-8"

structure Delims where
  Left : String := ""
  Right : String := ""
  deriving Repr, DecidableEq

structure RenderOptions where
  Directory : String := ""
  Layout : String := ""
  Extensions : List String := []
  Delims : Martini.Delims := {}
  Charset : String := ""
  IndentJSON : Bool := false
  IndentXML : Bool := false
  PrefixJSON : String := ""
  PrefixXML : String := ""
  HTMLContentType : String := ""
  deriving Repr, DecidableEq

structure HTMLRenderOptions where
  Layout : String := ""
  deriving Repr, DecidableEq

def prepareCharset (charset : String) : String :=
  if charset.length != 0 then "; charset=" ++ charset
  else "; charset=" ++ defaultCharset

def prepareRenderOptions (options : List RenderOptions) : RenderOptions :=
  let opt0 : RenderOptions :=
    match options with
    | o :: _ => o
    | [] => {}
  let opt1 := if opt0.Directory.length = 0 then { opt0 with Directory := "templates" } else opt0
  let opt2 := if opt1.Extensions.length = 0 then { opt1 with Extensions := [".html"] } else opt1
  if opt2.HTMLContentType.length = 0 then { opt2 with HTMLContentType := ContentHTML } else opt2

/-- Model of Go `strings.Split s "."` on char lists (single-character
separator). -/
def splitOnDot : List Char → List (List Char)
  | [] => [[]]
  | c :: t =>
    if c = '.' then [] :: splitOnDot t
    else
      match splitOnDot t with
      | g :: gs => (c :: g) :: gs
      | [] => [[c]]

/-- Model of Go `strings.Join l "."` on char lists. -/
def joinDot : List (List Char) → List Char
  | [] => []
  | [g] => g
  | g :: g2 :: gs => g ++ '.' :: joinDot (g2 :: gs)

/-- `getExt` from src/render.go: `""` when the path has no dot, otherwise
`"." + strings.Join(strings.Split(s, ".")[1:], ".")`. -/
def getExt (s : String) : String :=
  if s.data.contains '.' then ⟨'.' :: joinDot ((splitOnDot s.data).drop 1)⟩ else ""

/-- Model of `filepath.ToSlash` (replace the OS path separator by '/'). -/
def toSlash (sep : Char) (s : String) : String :=
  ⟨s.data.map (fun c => if c = sep then '/' else c)⟩

/-- The per-file step of `compile` from src/render.go: a walked file with
relative path `r` is registered exactly when `getExt r` equals one of the
configured extensions, under the name `filepath.ToSlash(r[0:len(r)-len(ext)])`. -/
def compileTemplateName (extensions : List String) (sep : Char) (r : String) : Option String :=
  let ext := getExt r
  if extensions.contains ext then
    some (toSlash sep ⟨r.data.take (r.data.length - ext.data.length)⟩)
  else none

/-- The `yield`/`current` function table currently installed on the template
set: either the default `helperFuncs`, or the pair registered by `addYield`. -/
inductive YieldFuncs (V : Type) where
  | helper
  | registered (name : String) (binding : V)
  deriving Repr, DecidableEq

/-- `template.HTML`: a string marked as pre-escaped markup. -/
structure TemplateHTML where
  html : String
  deriving Repr, DecidableEq

structure Render (V : Type) where
  rw : Response
  opt : RenderOptions
  compiledCharset : String
  tFuncs : YieldFuncs V

def Render.execute {V : Type} (exec : YieldFuncs V → String → V → Except String String)
    (r : Render V) (name : String) (binding : V) : Except String String :=
  exec r.tFuncs name binding

/-- `addYield`: installs `yield`/`current` closures over the content template
name and binding on the render's template set. -/
def addYield {V : Type} (r : Render V) (name : String) (binding : V) : Render V :=
  { r with tFuncs := YieldFuncs.registered name binding }

/-- The semantics of calling the `yield` template function under a given
function table: the default `helperFuncs` entry errors out; the entry
registered by `addYield` executes the content template with the binding and
wraps the output as pre-escaped `template.HTML`. -/
def yieldCall {V : Type} (exec : YieldFuncs V → String → V → Except String String) :
    YieldFuncs V → Except String TemplateHTML
  | YieldFuncs.helper => Except.error "yield called with no layout defined"
  | YieldFuncs.registered name binding =>
      (exec (YieldFuncs.registered name binding) name binding).map TemplateHTML.mk

/-- The semantics of calling the `current` template function. -/
def currentCall {V : Type} : YieldFuncs V → Except String String
  | YieldFuncs.helper => Except.ok ""
  | YieldFuncs.registered name _ => Except.ok name

def prepareHTMLRenderOptions {V : Type} (r : Render V)
    (htmlOpt : List HTMLRenderOptions) : HTMLRenderOptions :=
  match htmlOpt with
  | o :: _ => o
  | [] => { Layout := r.opt.Layout }

def renderBytes {V : Type} (exec : YieldFuncs V → String → V → Except String String)
    (r : Render V) (name : String) (binding : V)
    (htmlOpt : List HTMLRenderOptions) : Render V × Except String String :=
  let opt := prepareHTMLRenderOptions r htmlOpt
  let pair := if opt.Layout.length > 0 then (addYield r name binding, opt.Layout) else (r, name)
  (pair.1, Render.execute exec pair.1 pair.2 binding)

/-- `Render.JSON`.  `marshal` / `marshalIndent` are the results of
`json.Marshal v` / `json.MarshalIndent v "" "  "` (black boxes). -/
def Render.JSON {V : Type} (r : Render V) (marshal marshalIndent : Except String String)
    (status : Nat) : Render V :=
  let result := if r.opt.IndentJSON then marshalIndent else marshal
  match result with
  | Except.error e => { r with rw := httpError r.rw e 500 }
  | Except.ok payload =>
    let rw1 := { r.rw with headers := hSet r.rw.headers ContentType (ContentJSON ++ r.compiledCharset) }
    let rw2 := writeHeader rw1 status
    let rw3 := if r.opt.PrefixJSON.length > 0 then write rw2 r.opt.PrefixJSON else rw2
    { r with rw := write rw3 payload }

def Render.HTML {V : Type} (exec : YieldFuncs V → String → V → Except String String)
    (r : Render V) (status : Nat) (name : String) (binding : V)
    (htmlOpt : List HTMLRenderOptions) : Render V :=
  let pr := renderBytes exec r name binding htmlOpt
  match pr.2 with
  | Except.error e => { pr.1 with rw := httpError pr.1.rw e 500 }
  | Except.ok out =>
    let rw1 := { pr.1.rw with headers := hSet pr.1.rw.headers ContentType (r.opt.HTMLContentType ++ r.compiledCharset) }
    let rw2 := writeHeader rw1 status
    { pr.1 with rw := write rw2 out }

def Render.WriteData {V : Type} (r : Render V) (status : Nat) (v : String) : Render V :=
  let rw1 :=
    if hGet r.rw.headers ContentType = "" then
      { r.rw with headers := hSet r.rw.headers ContentType ContentBinary }
    else r.rw
  { r with rw := write (writeHeader rw1 status) v }

def Render.Error {V : Type} (r : Render V) (status : Nat) (message : List String) : Render V :=
  let rw1 := writeHeader r.rw status
  match message with
  | [] => { r with rw := rw1 }
  | m :: _ => { r with rw := write rw1 m }

def Render.Status {V : Type} (r : Render V) (status : Nat) : Render V :=
  { r with rw := writeHeader r.rw status }

/-! ### Sample values used by the witnesses -/

def sampleChainState : ChainState :=
  { resp := { headers := [], status := none, body := "" },
    gz := none, writer := MappedWriter.original }

def sampleGrw : gzipResponseWriter :=
  { w := { chunks := [], closed := false },
    rw := { headers := [], status := none, body := "" } }

def sampleRender : Render Unit :=
  { rw := { headers := [], status := none, body := "" },
    opt := {}, compiledCharset := "; charset=UTF-8", tFuncs := YieldFuncs.helper }

def sampleLayoutRender : Render Unit :=
  { rw := { headers := [], status := none, body := "" },
    opt := { Layout := "layout" }, compiledCharset := "; charset=UTF-8",
    tFuncs := YieldFuncs.helper }

def sampleJpegRender : Render Unit :=
  { rw := { headers := [("Content-Type", "image/jpeg")], status := none, body := "" },
    opt := {}, compiledCharset := "; charset=UTF-8", tFuncs := YieldFuncs.helper }

/-! ### Helper lemmas -/

theorem string_length_eq_zero_iff (s : String) : s.length = 0 ↔ s = "" := by
  constructor
  · intro h
    cases s with
    | mk l =>
      have hl : l = [] := List.length_eq_zero.mp h
      rw [hl]
  · intro h
    subst h
    rfl

theorem string_mk_data (s : String) : String.mk s.data = s := by
  cases s; rfl

theorem str_append_empty (s : String) : s ++ "" = s := by
  cases s with
  | mk l =>
    show String.mk (l ++ []) = String.mk l
    rw [List.append_nil]

theorem find?_filter_ne (k ks : String) (hne : ks ≠ k) (h : Headers) :
    (h.filter (fun p => p.1 != k)).find? (fun p => p.1 == ks) =
      h.find? (fun p => p.1 == ks) := by
  induction h with
  | nil => rfl
  | cons a t ih =>
    rw [List.filter_cons]
    by_cases hak : a.1 = k
    · have h1 : (a.1 != k) = false := by simp [hak]
      have h2 : ¬((a.1 == ks) = true) := by
        simp only [beq_iff_eq, hak]
        exact fun e => hne e.symm
      rw [h1]
      simp only [Bool.false_eq_true, if_false]
      rw [ih, @List.find?_cons_of_neg _ (fun q => q.1 == ks) a t h2]
    · have h1 : (a.1 != k) = true := by simp [hak]
      rw [h1, if_pos rfl]
      by_cases hak2 : (a.1 == ks) = true
      · rw [@List.find?_cons_of_pos _ (fun q => q.1 == ks) a
            (List.filter (fun p => p.1 != k) t) hak2,
          @List.find?_cons_of_pos _ (fun q => q.1 == ks) a t hak2]
      · rw [@List.find?_cons_of_neg _ (fun q => q.1 == ks) a
            (List.filter (fun p => p.1 != k) t) hak2,
          @List.find?_cons_of_neg _ (fun q => q.1 == ks) a t hak2, ih]

theorem hGet_hSet_self (h : Headers) (k v : String) : hGet (hSet h k v) k = v := by
  unfold hGet hSet
  rw [@List.find?_cons_of_pos _ (fun q => q.1 == k) (k, v) (hDel h k) (by simp)]

theorem hGet_hSet_ne (h : Headers) (k ks v : String) (hne : ks ≠ k) :
    hGet (hSet h k v) ks = hGet h ks := by
  unfold hGet hSet hDel
  rw [@List.find?_cons_of_neg _ (fun q => q.1 == ks) (k, v)
      (h.filter fun p => p.1 != k)
      (by simp only [beq_iff_eq]; exact fun e => hne e.symm),
    find?_filter_ne k ks hne h]

theorem writeHeader_headers (rw : Response) (c : Nat) :
    (writeHeader rw c).headers = rw.headers := by
  cases h : rw.status <;> simp [writeHeader, h]

theorem writeHeader_body (rw : Response) (c : Nat) :
    (writeHeader rw c).body = rw.body := by
  cases h : rw.status <;> simp [writeHeader, h]

theorem writeHeader_status_none (rw : Response) (c : Nat) (h : rw.status = none) :
    (writeHeader rw c).status = some c := by
  simp [writeHeader, h]

theorem writeHeader_status_some (rw : Response) (c s : Nat) (h : rw.status = some s) :
    (writeHeader rw c).status = some s := by
  simp [writeHeader, h]

theorem write_headers (rw : Response) (p : String) :
    (write rw p).headers = rw.headers := by
  simp [write, writeHeader_headers]

theorem write_body (rw : Response) (p : String) :
    (write rw p).body = rw.body ++ p := by
  simp [write, writeHeader_body]

theorem write_status_some (rw : Response) (p : String) (s : Nat) (h : rw.status = some s) :
    (write rw p).status = some s := by
  simp [write]
  exact writeHeader_status_some rw 200 s h

theorem httpError_body (rw : Response) (e : String) (c : Nat) :
    (httpError rw e c).body = rw.body ++ (e ++ "\n") := by
  simp [httpError, write_body, writeHeader_body]

theorem httpError_status (rw : Response) (e : String) (c : Nat) (h : rw.status = none) :
    (httpError rw e c).status = some c := by
  simp only [httpError]
  exact write_status_some _ _ _ (writeHeader_status_none _ c h)

theorem httpError_contentType (rw : Response) (e : String) (c : Nat) :
    hGet (httpError rw e c).headers "Content-Type" = "text/plain; charset=utf-8" := by
  simp only [httpError, write_headers, writeHeader_headers]
  rw [hGet_hSet_ne _ _ _ _ (by decide), hGet_hSet_self]

theorem renderBytes_fst_rw {V : Type} (exec : YieldFuncs V → String → V → Except String String)
    (r : Render V) (name : String) (binding : V) (htmlOpt : List HTMLRenderOptions) :
    (renderBytes exec r name binding htmlOpt).1.rw = r.rw := by
  by_cases hc : (prepareHTMLRenderOptions r htmlOpt).Layout.length > 0 <;>
    simp [renderBytes, addYield, hc]

theorem splitOnDot_ne_nil (l : List Char) : splitOnDot l ≠ [] := by
  cases l with
  | nil => simp [splitOnDot]
  | cons c t =>
    simp only [splitOnDot]
    by_cases hc : c = '.'
    · simp [hc]
    · simp only [if_neg hc]
      cases splitOnDot t <;> simp

theorem joinDot_splitOnDot (l : List Char) : joinDot (splitOnDot l) = l := by
  induction l with
  | nil => rfl
  | cons c t ih =>
    by_cases hc : c = '.'
    · subst hc
      simp only [splitOnDot, if_pos rfl]
      obtain ⟨g, gs, hg⟩ := List.exists_cons_of_ne_nil (splitOnDot_ne_nil t)
      rw [hg]
      rw [hg] at ih
      show [] ++ '.' :: joinDot (g :: gs) = '.' :: t
      rw [ih]
      rfl
    · simp only [splitOnDot, if_neg hc]
      cases hsp : splitOnDot t with
      | nil => exact absurd hsp (splitOnDot_ne_nil t)
      | cons g gs =>
        rw [hsp] at ih
        cases gs with
        | nil =>
          have hgt : g = t := ih
          show c :: g = c :: t
          rw [hgt]
        | cons g2 gs2 =>
          have ih2 : g ++ '.' :: joinDot (g2 :: gs2) = t := ih
          show (c :: g) ++ '.' :: joinDot (g2 :: gs2) = c :: t
          rw [List.cons_append, ih2]

theorem splitOnDot_append (a b : List Char) (h : '.' ∉ a) :
    splitOnDot (a ++ '.' :: b) = a :: splitOnDot b := by
  induction a with
  | nil => simp [splitOnDot]
  | cons c a2 ih =>
    have hc : c ≠ '.' := by
      intro e
      exact h (by simp [e])
    have ha : '.' ∉ a2 := fun m => h (List.mem_cons_of_mem _ m)
    simp only [List.cons_append, splitOnDot, if_neg hc]
    have ih2 : splitOnDot (List.append a2 ('.' :: b)) = a2 :: splitOnDot b := ih ha
    rw [ih2]

theorem getExt_no_dot (s : String) (h : s.data.contains '.' = false) : getExt s = "" := by
  unfold getExt
  rw [h]
  simp

theorem getExt_data (s : String) (a b : List Char) (hs : s.data = a ++ '.' :: b)
    (ha : '.' ∉ a) : getExt s = String.mk ('.' :: b) := by
  have hc : s.data.contains '.' = true := by
    rw [hs]
    exact List.elem_iff.mpr (by simp)
  unfold getExt
  rw [hc]
  rw [if_pos rfl]
  rw [hs, splitOnDot_append a b ha]
  have hdrop : (a :: splitOnDot b).drop 1 = splitOnDot b := rfl
  rw [hdrop, joinDot_splitOnDot]

/-! ### Claim theorems -/

/-- C1: for every request whose Accept-Encoding header contains the substring
"gzip", `serveGzip` runs the downstream chain on the state produced by
`gzipSetup` (so Content-Encoding: gzip and Vary: Accept-Encoding are set, the
gzip stream is created and the mapped writer is replaced before downstream
runs and before any body byte is written), and the wrapping writer's Write
sets Content-Type by sniffing the chunk whenever it is still unset and
forwards the chunk through the gzip stream instead of the underlying
writer's body. -/
theorem gzip_c1 (st : ChainState) (acceptEncoding : String)
    (next : ChainState → ChainState × Bool) (sniff : String → String)
    (grw : gzipResponseWriter) (p : String)
    (h : stringContains acceptEncoding "gzip" = true) :
    serveGzip acceptEncoding next st =
      (if (next (gzipSetup st)).2 then
        (gzipClose (next (gzipSetup st)).1, true, gzipPanicEvents)
      else
        (gzipClose (gzipDelContentLength (next (gzipSetup st)).1), false,
          gzipNormalEvents)) ∧
    hGet (gzipSetup st).resp.headers HeaderContentEncoding = "gzip" ∧
    hGet (gzipSetup st).resp.headers HeaderVary = "Accept-Encoding" ∧
    (gzipSetup st).resp.body = st.resp.body ∧
    (gzipSetup st).resp.status = st.resp.status ∧
    (gzipSetup st).writer = MappedWriter.gzipped ∧
    (gzipSetup st).gz = some { chunks := [], closed := false } ∧
    gzipNormalEvents.indexOf (GzEvent.setHeader HeaderContentEncoding "gzip") <
      gzipNormalEvents.indexOf GzEvent.runNext ∧
    gzipNormalEvents.indexOf GzEvent.mapGzipWriter <
      gzipNormalEvents.indexOf GzEvent.runNext ∧
    (hGet grw.rw.headers HeaderContentType = "" →
      hGet (grw.Write sniff p).rw.headers HeaderContentType = sniff p) ∧
    (hGet grw.rw.headers HeaderContentType ≠ "" →
      (grw.Write sniff p).rw.headers = grw.rw.headers) ∧
    (grw.Write sniff p).w.chunks = grw.w.chunks ++ [p] ∧
    (grw.Write sniff p).rw.body = grw.rw.body := by
  refine ⟨by simp [serveGzip, h], ?_, ?_, rfl, rfl, rfl, rfl, by decide, by decide,
    ?_, ?_, ?_, ?_⟩
  · show hGet (hSet (hSet st.resp.headers HeaderContentEncoding "gzip")
      HeaderVary HeaderAcceptEncoding) HeaderContentEncoding = "gzip"
    rw [hGet_hSet_ne _ _ _ _ (by decide), hGet_hSet_self]
  · show hGet (hSet (hSet st.resp.headers HeaderContentEncoding "gzip")
      HeaderVary HeaderAcceptEncoding) HeaderVary = "Accept-Encoding"
    rw [hGet_hSet_self]
    rfl
  · intro hct
    have hl : (hGet grw.rw.headers HeaderContentType).length = 0 := by
      rw [hct]
      rfl
    simp only [gzipResponseWriter.Write, if_pos hl]
    exact hGet_hSet_self _ _ _
  · intro hct
    have hl : ¬(hGet grw.rw.headers HeaderContentType).length = 0 :=
      fun hz => hct ((string_length_eq_zero_iff _).mp hz)
    simp [gzipResponseWriter.Write, if_neg hl]
  · by_cases hl : (hGet grw.rw.headers HeaderContentType).length = 0 <;>
      simp [gzipResponseWriter.Write, hl]
  · by_cases hl : (hGet grw.rw.headers HeaderContentType).length = 0 <;>
      simp [gzipResponseWriter.Write, hl]

/-- C1 witness at a concrete request: Accept-Encoding "deflate, gzip"
contains "gzip"; headers are set, the sniffed Content-Type is installed on
first write and the chunk goes into the gzip stream only. -/
theorem gzip_c1_witness :
    hGet (gzipSetup sampleChainState).resp.headers HeaderContentEncoding = "gzip" ∧
    hGet (sampleGrw.Write (fun _ => "text/plain; charset=utf-8") "hello").rw.headers
      HeaderContentType = "text/plain; charset=utf-8" ∧
    (sampleGrw.Write (fun _ => "text/plain; charset=utf-8") "hello").w.chunks =
      [] ++ ["hello"] ∧
    (sampleGrw.Write (fun _ => "text/plain; charset=utf-8") "hello").rw.body = "" := by
  obtain ⟨h1, h2, h3, h4, h5, h6, h7, h8, h9, h10, h11, h12, h13⟩ :=
    gzip_c1 sampleChainState "deflate, gzip" (fun s => (s, false))
      (fun _ => "text/plain; charset=utf-8") sampleGrw "hello" (by decide)
  exact ⟨h2, h10 rfl, h12, h13⟩

/-- C2: for every request whose Accept-Encoding header does not contain the
substring "gzip", the filter returns with the chain state completely
unchanged: no header mutated, the writer not wrapped, no events; and a body
chunk written by downstream through the unwrapped writer passes through
verbatim. -/
theorem gzip_c2 (st : ChainState) (acceptEncoding : String)
    (next : ChainState → ChainState × Bool) (p : String)
    (h : stringContains acceptEncoding "gzip" = false) :
    serveGzip acceptEncoding next st = (st, false, []) ∧
    (write st.resp p).body = st.resp.body ++ p := by
  exact ⟨by simp [serveGzip, h], write_body st.resp p⟩

/-- C2 witness at Accept-Encoding "identity". -/
theorem gzip_c2_witness :
    serveGzip "identity" (fun s => (s, false)) sampleChainState =
      (sampleChainState, false, []) ∧
    (write sampleChainState.resp "hello").body = "" ++ "hello" := by
  exact gzip_c2 sampleChainState "identity" (fun s => (s, false)) "hello" (by decide)

/-- C3 counterexample: on a concrete gzip request with a normally returning
downstream, the Content-Length deletion event occurs in the trace, the close
(finalization) event occurs, but the close does NOT precede the deletion —
the code deletes Content-Length before the deferred `gz.Close()` runs, not
after finalization as the claim states. -/
theorem gzip_c3_counterexample :
    (serveGzip "gzip" (fun s => (s, false)) sampleChainState).2.2 = gzipNormalEvents ∧
    GzEvent.delHeader "Content-Length" ∈ gzipNormalEvents ∧
    GzEvent.closeStream ∈ gzipNormalEvents ∧
    ¬ gzipNormalEvents.indexOf GzEvent.closeStream <
        gzipNormalEvents.indexOf (GzEvent.delHeader "Content-Length") := by
  exact ⟨by decide, by decide, by decide, by decide⟩

/-- C3 amended: for every gzip-compressed request, after the downstream
chain completes the compression stream is finalized (closed), and this
finalization happens even if downstream panics; the Content-Length deletion
happens after downstream completes but BEFORE the finalization, and it is
skipped entirely when downstream panics. -/
theorem gzip_c3_amended (st : ChainState) (acceptEncoding : String)
    (next : ChainState → ChainState × Bool)
    (h : stringContains acceptEncoding "gzip" = true) :
    ((next (gzipSetup st)).2 = false →
      serveGzip acceptEncoding next st =
        (gzipClose (gzipDelContentLength (next (gzipSetup st)).1), false,
          gzipNormalEvents)) ∧
    ((next (gzipSetup st)).2 = true →
      serveGzip acceptEncoding next st =
        (gzipClose (next (gzipSetup st)).1, true, gzipPanicEvents)) ∧
    (∀ st2 : ChainState, ∀ g : GzipStream, st2.gz = some g →
      (gzipClose st2).gz = some { g with closed := true }) ∧
    GzEvent.closeStream ∈ gzipNormalEvents ∧
    GzEvent.closeStream ∈ gzipPanicEvents ∧
    gzipNormalEvents.indexOf GzEvent.runNext <
      gzipNormalEvents.indexOf (GzEvent.delHeader "Content-Length") ∧
    gzipNormalEvents.indexOf (GzEvent.delHeader "Content-Length") <
      gzipNormalEvents.indexOf GzEvent.closeStream ∧
    GzEvent.delHeader "Content-Length" ∉ gzipPanicEvents := by
  refine ⟨?_, ?_, ?_, by decide, by decide, by decide, by decide, by decide⟩
  · intro hn
    simp [serveGzip, h, hn]
  · intro hn
    simp [serveGzip, h, hn]
  · intro st2 g hg
    simp [gzipClose, hg]

/-- C3 amended witness: a panicking downstream still gets the stream closed,
and the Content-Length deletion is skipped. -/
theorem gzip_c3_witness :
    serveGzip "gzip" (fun s => (s, true)) sampleChainState =
      (gzipClose (gzipSetup sampleChainState), true, gzipPanicEvents) ∧
    GzEvent.delHeader "Content-Length" ∉ gzipPanicEvents := by
  obtain ⟨h1, h2, h3, h4, h5, h6, h7, h8⟩ :=
    gzip_c3_amended sampleChainState "gzip" (fun s => (s, true)) (by decide)
  exact ⟨h2 rfl, h8⟩

/-- C4: `Render.JSON` uses the indented serialization iff IndentJSON is
configured; on serialization failure it responds through `http.Error` with
status 500 and the error text as body, leaving Content-Type at text/plain
(the application/json content type and the intended status are never
written); on success it sets Content-Type to application/json plus the
charset suffix, writes the given status, and writes the configured prefix
bytes followed by the payload. -/
theorem render_c4 {V : Type} (r : Render V) (marshal marshalIndent : Except String String)
    (status : Nat) :
    (∀ e, (if r.opt.IndentJSON then marshalIndent else marshal) = Except.error e →
      (Render.JSON r marshal marshalIndent status).rw = httpError r.rw e 500 ∧
      (r.rw.status = none →
        (Render.JSON r marshal marshalIndent status).rw.status = some 500) ∧
      (Render.JSON r marshal marshalIndent status).rw.body = r.rw.body ++ (e ++ "\n") ∧
      hGet (Render.JSON r marshal marshalIndent status).rw.headers ContentType =
        "text/plain; charset=utf-8") ∧
    (∀ payload, (if r.opt.IndentJSON then marshalIndent else marshal) = Except.ok payload →
      hGet (Render.JSON r marshal marshalIndent status).rw.headers ContentType =
        ContentJSON ++ r.compiledCharset ∧
      (r.rw.status = none →
        (Render.JSON r marshal marshalIndent status).rw.status = some status) ∧
      (Render.JSON r marshal marshalIndent status).rw.body =
        r.rw.body ++ r.opt.PrefixJSON ++ payload) := by
  constructor
  · intro e he
    have hJ : Render.JSON r marshal marshalIndent status =
        { r with rw := httpError r.rw e 500 } := by
      simp [Render.JSON, he]
    refine ⟨by rw [hJ], ?_, ?_, ?_⟩
    · intro hs
      rw [hJ]
      exact httpError_status r.rw e 500 hs
    · rw [hJ]
      exact httpError_body r.rw e 500
    · rw [hJ]
      exact httpError_contentType r.rw e 500
  · intro payload hp
    by_cases hpre : r.opt.PrefixJSON.length > 0
    · refine ⟨?_, ?_, ?_⟩
      · simp only [Render.JSON, hp, if_pos hpre, write_headers, writeHeader_headers]
        exact hGet_hSet_self _ _ _
      · intro hs
        simp only [Render.JSON, hp, if_pos hpre]
        exact write_status_some _ _ _
          (write_status_some _ _ _ (writeHeader_status_none _ _ hs))
      · simp only [Render.JSON, hp, if_pos hpre, write_body, writeHeader_body]
    · have hp0 : r.opt.PrefixJSON = "" :=
        (string_length_eq_zero_iff _).mp (Nat.eq_zero_of_not_pos hpre)
      refine ⟨?_, ?_, ?_⟩
      · simp only [Render.JSON, hp, if_neg hpre, write_headers, writeHeader_headers]
        exact hGet_hSet_self _ _ _
      · intro hs
        simp only [Render.JSON, hp, if_neg hpre]
        exact write_status_some _ _ _ (writeHeader_status_none _ _ hs)
      · simp only [Render.JSON, hp, if_neg hpre, write_body, writeHeader_body]
        rw [hp0, str_append_empty]

/-- C4 witness: a successful serialization with default options yields
Content-Type application/json; charset=UTF-8, the intended status 300, and
the payload as body. -/
theorem render_c4_witness :
    hGet (Render.JSON sampleRender (Except.ok "[1,2]") (Except.ok "indented") 300).rw.headers
      ContentType = ContentJSON ++ "; charset=UTF-8" ∧
    (Render.JSON sampleRender (Except.ok "[1,2]") (Except.ok "indented") 300).rw.status =
      some 300 ∧
    (Render.JSON sampleRender (Except.ok "[1,2]") (Except.ok "indented") 300).rw.body =
      "" ++ "" ++ "[1,2]" := by
  obtain ⟨h1, h2, h3⟩ :=
    (render_c4 sampleRender (Except.ok "[1,2]") (Except.ok "indented") 300).2 "[1,2]" rfl
  exact ⟨h1, h2 rfl, h3⟩

/-- C5: the effective layout of an HTML call is the call-site override when
one is supplied and the middleware default otherwise; when the effective
layout is non-empty, `renderBytes` registers the `yield`/`current` functions
over the content template name and binding and executes the layout template
top-level; when it is empty the named template is executed directly; the
registered `yield` renders the content template with the binding as
pre-escaped markup, and `current` returns the content template's name. -/
theorem render_c5 {V : Type} (exec : YieldFuncs V → String → V → Except String String)
    (r : Render V) (name : String) (binding : V) (htmlOpt : List HTMLRenderOptions) :
    (∀ o rest, htmlOpt = o :: rest → prepareHTMLRenderOptions r htmlOpt = o) ∧
    (htmlOpt = [] → (prepareHTMLRenderOptions r htmlOpt).Layout = r.opt.Layout) ∧
    ((prepareHTMLRenderOptions r htmlOpt).Layout ≠ "" →
      renderBytes exec r name binding htmlOpt =
        (addYield r name binding,
          exec (YieldFuncs.registered name binding)
            (prepareHTMLRenderOptions r htmlOpt).Layout binding) ∧
      (addYield r name binding).tFuncs = YieldFuncs.registered name binding) ∧
    ((prepareHTMLRenderOptions r htmlOpt).Layout = "" →
      renderBytes exec r name binding htmlOpt = (r, exec r.tFuncs name binding)) ∧
    yieldCall exec (YieldFuncs.registered name binding) =
      (exec (YieldFuncs.registered name binding) name binding).map TemplateHTML.mk ∧
    currentCall (YieldFuncs.registered name binding : YieldFuncs V) = Except.ok name := by
  refine ⟨?_, ?_, ?_, ?_, rfl, rfl⟩
  · intro o rest ho
    simp [prepareHTMLRenderOptions, ho]
  · intro ho
    simp [prepareHTMLRenderOptions, ho]
  · intro hl
    have hlen : (prepareHTMLRenderOptions r htmlOpt).Layout.length > 0 := by
      rcases Nat.eq_zero_or_pos (prepareHTMLRenderOptions r htmlOpt).Layout.length with h0 | h0
      · exact absurd ((string_length_eq_zero_iff _).mp h0) hl
      · exact h0
    exact ⟨by simp [renderBytes, if_pos hlen, Render.execute, addYield], rfl⟩
  · intro hl
    have hlen : ¬(prepareHTMLRenderOptions r htmlOpt).Layout.length > 0 := by
      rw [hl]
      decide
    simp [renderBytes, if_neg hlen, Render.execute]

/-- C5 witness: with middleware default layout "layout" and no call-site
override, the layout template is executed top-level with the
content/binding pair registered, and `yield` renders the content template
as pre-escaped markup. -/
theorem render_c5_witness :
    renderBytes (fun _ n _ => Except.ok n) sampleLayoutRender "content" () [] =
      (addYield sampleLayoutRender "content" (), Except.ok "layout") ∧
    yieldCall (fun _ n _ => Except.ok n) (YieldFuncs.registered "content" ()) =
      Except.ok (TemplateHTML.mk "content") := by
  obtain ⟨h1, h2, h3, h4, h5, h6⟩ :=
    render_c5 (fun _ n _ => Except.ok n) sampleLayoutRender "content" () []
  exact ⟨(h3 (by decide)).1, h5⟩

/-- C6: when template execution fails, `Render.HTML` responds through
`http.Error`: status 500, the error text as body, Content-Type text/plain;
the configured HTML content type and the status intended for success are
never written. -/
theorem render_c6 {V : Type} (exec : YieldFuncs V → String → V → Except String String)
    (r : Render V) (status : Nat) (name : String) (binding : V)
    (htmlOpt : List HTMLRenderOptions) (e : String)
    (h : (renderBytes exec r name binding htmlOpt).2 = Except.error e) :
    (Render.HTML exec r status name binding htmlOpt).rw = httpError r.rw e 500 ∧
    (r.rw.status = none →
      (Render.HTML exec r status name binding htmlOpt).rw.status = some 500) ∧
    (Render.HTML exec r status name binding htmlOpt).rw.body =
      r.rw.body ++ (e ++ "\n") ∧
    hGet (Render.HTML exec r status name binding htmlOpt).rw.headers ContentType =
      "text/plain; charset=utf-8" ∧
    (r.rw.status = none → status ≠ 500 →
      (Render.HTML exec r status name binding htmlOpt).rw.status ≠ some status) := by
  have hrw : (renderBytes exec r name binding htmlOpt).1.rw = r.rw :=
    renderBytes_fst_rw exec r name binding htmlOpt
  have hH : (Render.HTML exec r status name binding htmlOpt).rw = httpError r.rw e 500 := by
    simp [Render.HTML, h, hrw]
  refine ⟨hH, ?_, ?_, ?_, ?_⟩
  · intro hs
    rw [hH]
    exact httpError_status r.rw e 500 hs
  · rw [hH]
    exact httpError_body r.rw e 500
  · rw [hH]
    exact httpError_contentType r.rw e 500
  · intro hs hne
    rw [hH, httpError_status r.rw e 500 hs]
    intro hc
    exact hne (Option.some.inj hc).symm

/-- C6 witness: executing an undefined template name produces status 500 and
the template-engine error text as body. -/
theorem render_c6_witness :
    (Render.HTML (fun _ _ _ => Except.error "html/template: \"nope\" is undefined")
      sampleRender 200 "nope" () []).rw.status = some 500 ∧
    (Render.HTML (fun _ _ _ => Except.error "html/template: \"nope\" is undefined")
      sampleRender 200 "nope" () []).rw.body =
      "" ++ ("html/template: \"nope\" is undefined" ++ "\n") := by
  obtain ⟨h1, h2, h3, h4, h5⟩ :=
    render_c6 (fun _ _ _ => Except.error "html/template: \"nope\" is undefined")
      sampleRender 200 "nope" () [] "html/template: \"nope\" is undefined" rfl
  exact ⟨h2 rfl, h3⟩

/-- C7: `Render.WriteData` defaults Content-Type to
application/octet-stream only when none is set, writes the given status and
appends the raw bytes verbatim; a pre-set Content-Type is never
overridden. -/
theorem render_c7 {V : Type} (r : Render V) (status : Nat) (v : String) :
    (hGet r.rw.headers ContentType = "" →
      hGet (Render.WriteData r status v).rw.headers ContentType = ContentBinary) ∧
    (hGet r.rw.headers ContentType ≠ "" →
      (Render.WriteData r status v).rw.headers = r.rw.headers ∧
      hGet (Render.WriteData r status v).rw.headers ContentType =
        hGet r.rw.headers ContentType) ∧
    (r.rw.status = none → (Render.WriteData r status v).rw.status = some status) ∧
    (Render.WriteData r status v).rw.body = r.rw.body ++ v := by
  refine ⟨?_, ?_, ?_, ?_⟩
  · intro hct
    simp only [Render.WriteData, if_pos hct, write_headers, writeHeader_headers]
    exact hGet_hSet_self _ _ _
  · intro hct
    constructor <;> simp [Render.WriteData, if_neg hct, write_headers, writeHeader_headers]
  · intro hs
    by_cases hct : hGet r.rw.headers ContentType = ""
    · simp only [Render.WriteData, if_pos hct]
      exact write_status_some _ _ _ (writeHeader_status_none _ _ hs)
    · simp only [Render.WriteData, if_neg hct]
      exact write_status_some _ _ _ (writeHeader_status_none _ _ hs)
  · by_cases hct : hGet r.rw.headers ContentType = "" <;>
      simp [Render.WriteData, hct, write_body, writeHeader_body]

/-- C7 witness: a pre-set Content-Type image/jpeg is preserved, the status
is written and the bytes pass through verbatim. -/
theorem render_c7_witness :
    (Render.WriteData sampleJpegRender 200 "..jpeg data..").rw.headers =
      [("Content-Type", "image/jpeg")] ∧
    hGet (Render.WriteData sampleJpegRender 200 "..jpeg data..").rw.headers ContentType =
      "image/jpeg" ∧
    (Render.WriteData sampleJpegRender 200 "..jpeg data..").rw.status = some 200 ∧
    (Render.WriteData sampleJpegRender 200 "..jpeg data..").rw.body =
      "" ++ "..jpeg data.." := by
  obtain ⟨h1, h2, h3, h4⟩ := render_c7 sampleJpegRender 200 "..jpeg data.."
  obtain ⟨h2a, h2b⟩ := h2 (by decide)
  refine ⟨h2a, ?_, h3 rfl, h4⟩
  rw [h2b]
  decide

/-- C8: `Render.Status s` and `Render.Error s` with no message are the
identical operation (write the status, nothing else: headers and body are
untouched), and `Render.Error s (m :: _)` additionally writes the literal
message as the body. -/
theorem render_c8 {V : Type} (r : Render V) (status : Nat) (m : String)
    (rest : List String) :
    Render.Status r status = Render.Error r status [] ∧
    Render.Error r status (m :: rest) =
      { r with rw := write (writeHeader r.rw status) m } ∧
    (Render.Error r status (m :: rest)).rw.body = (Render.Status r status).rw.body ++ m ∧
    (Render.Status r status).rw.headers = r.rw.headers ∧
    (Render.Status r status).rw.body = r.rw.body ∧
    (Render.Status r status).rw = writeHeader r.rw status := by
  refine ⟨rfl, rfl, ?_, writeHeader_headers r.rw status, writeHeader_body r.rw status, rfl⟩
  show (write (writeHeader r.rw status) m).body = (writeHeader r.rw status).body ++ m
  exact write_body _ m

/-- C9: for every file walked in the template directory, the extension is
the suffix of the relative path beginning at the first dot (empty when there
is no dot), the file is eligible exactly when that extension is one of the
configured allowlist entries, and the template name is the relative path
with the extension stripped, with the OS path separator mapped to '/' so
sub-directories become slash-separated segments of the name. -/
theorem render_c9 (extensions : List String) (sep : Char) (r : String) :
    (r.data.contains '.' = false → getExt r = "") ∧
    (∀ a b : List Char, r.data = a ++ '.' :: b → '.' ∉ a →
      getExt r = String.mk ('.' :: b)) ∧
    (compileTemplateName extensions sep r).isSome = extensions.contains (getExt r) ∧
    (∀ a b : List Char, r.data = a ++ '.' :: b → '.' ∉ a →
      extensions.contains (getExt r) = true →
      compileTemplateName extensions sep r = some (toSlash sep (String.mk a))) ∧
    (r.data.contains '.' = false → extensions.contains "" = true →
      compileTemplateName extensions sep r = some (toSlash sep r)) ∧
    (∀ s : String, (toSlash sep s).data = s.data.map (fun c => if c = sep then '/' else c)) := by
  refine ⟨getExt_no_dot r, fun a b hs ha => getExt_data r a b hs ha, ?_, ?_, ?_,
    fun s => rfl⟩
  · by_cases hm : getExt r ∈ extensions <;> simp [compileTemplateName, hm]
  · intro a b hs ha hmem
    have he := getExt_data r a b hs ha
    unfold compileTemplateName
    rw [if_pos hmem, he]
    have hdata : (String.mk ('.' :: b)).data = '.' :: b := rfl
    rw [hdata, hs]
    have hlen : (a ++ '.' :: b).length - ('.' :: b).length = a.length := by
      rw [List.length_append]
      omega
    rw [hlen, List.take_left]
  · intro hc hmem
    have he := getExt_no_dot r hc
    have hmem2 : extensions.contains (getExt r) = true := by
      rw [he]
      exact hmem
    unfold compileTemplateName
    rw [if_pos hmem2, he]
    have hz : ("" : String).data.length = 0 := rfl
    rw [hz, Nat.sub_zero, List.take_length, string_mk_data]

/-- C9 witness: "admin/index.html" with allowlist [".html"] is eligible and
named "admin/index"; the extension of "test.go.html" is ".go.html" (the
suffix from the first dot on). -/
theorem render_c9_witness :
    compileTemplateName [".html"] '/' "admin/index.html" =
      some (toSlash '/' (String.mk ("admin/index").data)) ∧
    getExt "test.go.html" = String.mk ('.' :: ("go.html").data) := by
  obtain ⟨h1, h2, h3, h4, h5, h6⟩ := render_c9 [".html"] '/' "admin/index.html"
  obtain ⟨g1, g2, g3, g4, g5, g6⟩ := render_c9 [] '/' "test.go.html"
  exact ⟨h4 ("admin/index").data ("html").data (by decide) (by decide) (by decide),
    g2 ("test").data ("go.html").data (by decide) (by decide)⟩

/-- C10: the render configuration defaults: a registration with an empty
Directory gets "templates", an empty Extensions list gets [".html"], an
empty HTMLContentType gets "text/html"; non-empty values and all other
fields are kept unchanged. -/
theorem render_c10 (options : List RenderOptions) :
    ((options.headD {}).Directory = "" →
      (prepareRenderOptions options).Directory = "templates") ∧
    ((options.headD {}).Directory ≠ "" →
      (prepareRenderOptions options).Directory = (options.headD {}).Directory) ∧
    ((options.headD {}).Extensions = [] →
      (prepareRenderOptions options).Extensions = [".html"]) ∧
    ((options.headD {}).Extensions ≠ [] →
      (prepareRenderOptions options).Extensions = (options.headD {}).Extensions) ∧
    ((options.headD {}).HTMLContentType = "" →
      (prepareRenderOptions options).HTMLContentType = ContentHTML) ∧
    ((options.headD {}).HTMLContentType ≠ "" →
      (prepareRenderOptions options).HTMLContentType = (options.headD {}).HTMLContentType) ∧
    (prepareRenderOptions options).Layout = (options.headD {}).Layout ∧
    (prepareRenderOptions options).Charset = (options.headD {}).Charset ∧
    (prepareRenderOptions options).IndentJSON = (options.headD {}).IndentJSON ∧
    (prepareRenderOptions options).IndentXML = (options.headD {}).IndentXML ∧
    (prepareRenderOptions options).PrefixJSON = (options.headD {}).PrefixJSON ∧
    (prepareRenderOptions options).PrefixXML = (options.headD {}).PrefixXML ∧
    (prepareRenderOptions options).Delims = (options.headD {}).Delims := by
  cases options with
  | nil => decide
  | cons o rest =>
    have key : prepareRenderOptions (o :: rest) =
        { o with
          Directory := if o.Directory.length = 0 then "templates" else o.Directory,
          Extensions := if o.Extensions.length = 0 then [".html"] else o.Extensions,
          HTMLContentType :=
            if o.HTMLContentType.length = 0 then ContentHTML else o.HTMLContentType } := by
      unfold prepareRenderOptions
      by_cases h1 : o.Directory.length = 0 <;> by_cases h2 : o.Extensions.length = 0 <;>
        by_cases h3 : o.HTMLContentType.length = 0 <;> simp [h1, h2, h3]
    have hhead : ((o :: rest).headD {} : RenderOptions) = o := rfl
    rw [key, hhead]
    refine ⟨?_, ?_, ?_, ?_, ?_, ?_, rfl, rfl, rfl, rfl, rfl, rfl, rfl⟩
    · intro h
      have h0 : o.Directory.length = 0 := (string_length_eq_zero_iff _).mpr h
      simp [h0]
    · intro h
      have h0 : ¬o.Directory.length = 0 :=
        fun hz => h ((string_length_eq_zero_iff _).mp hz)
      simp [h0]
    · intro h
      have h0 : o.Extensions.length = 0 := by rw [h]; rfl
      simp [h0]
    · intro h
      have h0 : ¬o.Extensions.length = 0 :=
        fun hz => h (List.length_eq_zero.mp hz)
      simp [h0]
    · intro h
      have h0 : o.HTMLContentType.length = 0 := (string_length_eq_zero_iff _).mpr h
      simp [h0]
    · intro h
      have h0 : ¬o.HTMLContentType.length = 0 :=
        fun hz => h ((string_length_eq_zero_iff _).mp hz)
      simp [h0]

/-- C10 witness: the empty registration gets all three defaults; explicitly
provided Directory and Layout are kept. -/
theorem render_c10_witness :
    (prepareRenderOptions []).Directory = "templates" ∧
    (prepareRenderOptions []).Extensions = [".html"] ∧
    (prepareRenderOptions []).HTMLContentType = "text/html" ∧
    (prepareRenderOptions [{ Directory := "fixtures/basic", Layout := "layout" }]).Directory =
      "fixtures/basic" ∧
    (prepareRenderOptions [{ Directory := "fixtures/basic", Layout := "layout" }]).Layout =
      "layout" := by
  obtain ⟨a1, a2, a3, a4, a5, a6, a7, a8, a9, a10, a11, a12, a13⟩ := render_c10 []
  obtain ⟨b1, b2, b3, b4, b5, b6, b7, b8, b9, b10, b11, b12, b13⟩ :=
    render_c10 [{ Directory := "fixtures/basic", Layout := "layout" }]
  exact ⟨a1 rfl, a3 rfl, a5 rfl, b2 (by decide), b7⟩

end Martini
